import Mathlib

/-!
Verification development for the half-edge planar mesh kernel of
`libs/mesh/mesh.py` (the component-tracked variant of the mesh module).

Shallow embedding conventions:

* Python objects live in per-type heaps (association lists keyed by the
  component id produced by the mesh id counter).  Removing a component from
  the mesh (`remove_from_mesh`) only deletes its id from the mesh dictionary
  and clears its `inMesh` flag; the heap record survives, exactly as the
  Python object survives while other objects still hold references to it.
* Coordinates are stored as integers scaled by `10 ^ 4`: the source truncates
  every stored coordinate to `COORD_DECIMAL = 4` decimals, so the scaled
  values are exact integers.  Transient geometric points (ray intersections,
  projections) are exact integer fractions (`FPoint`), truncated on vertex
  creation just as the source truncates on `Vertex.__init__`.
* The float comparisons of Euclidean distances in the source are embedded as
  the equivalent exact comparisons of squared distances (all quantities
  compared are nonnegative, so the two are equivalent); `max_length` style
  bounds are carried squared.
* Python exceptions are modelled by a result type that carries the state at
  raise time, so a theorem about a raising path can also speak about the
  mutations that had (or had not) happened before the raise.
* The helper module `libs/utils/geometry` is not part of the sources, only
  its import list is; the helpers used here (`truncate`, `pseudo_equal`,
  `ccw_angle`, `unit_vector`, `opposite_vector`, `dot_product`,
  `project_point_on_segment`, `distance`) are modelled from the spec, see
  the individual doc comments.
-/

namespace MeshKernel

/-- Error kinds replacing the Python exception classes / messages: `valueErr`
for `ValueError`, `outsideFaceErr` for `OutsideFaceError`, `keyErr` for
dictionary `KeyError` / missing-object accesses (`AttributeError` on `None`),
`fuelErr` for a traversal that does not terminate within the provided fuel. -/
inductive Err where
  | valueErr : Err
  | outsideFaceErr : Err
  | keyErr : Err
  | fuelErr : Err
  deriving DecidableEq, Repr

/-- A 2D point or vector in scaled integer coordinates (real value times
`10 ^ 4`, the source's `COORD_DECIMAL` truncation grid). -/
structure Pt where
  x : ℤ
  y : ℤ
  deriving DecidableEq, Repr

/-- An exact transient point with denominator: the point `(xn / d, yn / d)`
in scaled coordinates, `d > 0`.  Used for ray/segment intersections before
they are truncated onto the coordinate grid. -/
structure FPoint where
  xn : ℤ
  yn : ℤ
  d : ℤ
  deriving DecidableEq, Repr

/-- `COORD_EPSILON = 1.0` in scaled units. -/
def coordEps : ℤ := 10000

/-- `ANGLE_EPSILON = 2.0` (degrees). -/
def angleEps : ℤ := 2

/-- `MIN_ANGLE = 5.0` (degrees). -/
def minAngle : ℤ := 5

/-- Modelled from the spec: the `truncate` helper of the missing
`libs/utils/geometry` module, which truncates a coordinate to
`COORD_DECIMAL = 4` decimals.  On the scaled-integer grid a fraction
`n / d` (with `d > 0`) truncates toward zero to the integer `n.div d`
(`int()` style truncation). -/
def truncate (n d : ℤ) : ℤ := Int.tdiv n d

/-- Truncation of an exact transient point onto the coordinate grid, as
performed by `Vertex.__init__` on its `x`/`y` arguments. -/
def truncFP (p : FPoint) : Pt := ⟨truncate p.xn p.d, truncate p.yn p.d⟩

/-- Modelled from the spec: `pseudo_equal(value, target, epsilon)` of the
missing geometry module, the approximate equality used for angles. -/
def pseudo_equal (value target eps : ℤ) : Bool := (value - target).natAbs ≤ eps.natAbs

/-- Cross product of two scaled vectors. -/
def cross (u v : Pt) : ℤ := u.x * v.y - u.y * v.x

/-- Modelled from the spec: `dot_product` of the missing geometry module. -/
def dot_product (u v : Pt) : ℤ := u.x * v.x + u.y * v.y

/-- Modelled from the spec: `opposite_vector` of the missing geometry
module. -/
def opposite_vector (u : Pt) : Pt := ⟨-u.x, -u.y⟩

/-- The un-normalised CCW normal of an edge vector (`Edge.normal` divides by
the length, which only rescales; every use in the embedded code is a sign
test of a dot product, for which the un-normalised normal is exact.  A
zero-length edge has normal `(0, 0)` in the source, matching the rotation of
the zero vector). -/
def normalVec (u : Pt) : Pt := ⟨-u.y, u.x⟩

/-- Squared Euclidean distance between two grid points (the source compares
`distance` values, all nonnegative, so comparing squares is equivalent). -/
def distSq (p q : Pt) : ℤ := (p.x - q.x) ^ 2 + (p.y - q.y) ^ 2

/-- `Vertex.is_close`: `distance ≤ COORD_EPSILON` embedded as
`distSq ≤ coordEps ^ 2`. -/
def is_close (p q : Pt) : Bool := distSq p q ≤ coordEps ^ 2

/-- Squared distance from an exact fraction point to a grid point, returned
as a fraction `(num, den)` with positive denominator. -/
def distSqF (p : FPoint) (q : Pt) : ℤ × ℤ :=
  ((p.xn - q.x * p.d) ^ 2 + (p.yn - q.y * p.d) ^ 2, p.d ^ 2)

/-- Comparison of two nonnegative fractions `(a.1 / a.2) < (b.1 / b.2)`
with positive denominators, by cross multiplication. -/
def fracLt (a b : ℤ × ℤ) : Bool := a.1 * b.2 < b.1 * a.2

/-- Modelled from the spec: the octant-quantised counter-clockwise angle (in
degrees) of a vector, standing in for the transcendental `ccw_angle` helper
of the missing geometry module.  It is exact whenever the vector lies on one
of the eight principal directions, which covers every concrete input
evaluated in this file; in the symbolic theorems the branches this angle
drives are discharged by explicit hypotheses on the computed values. -/
def octAngle (u : Pt) : ℤ :=
  if u.y = 0 then (if u.x ≥ 0 then 0 else 180)
  else if u.y > 0 then
    (if u.x = 0 then 90 else if u.x > 0 then 45 else 135)
  else
    (if u.x = 0 then 270 else if u.x > 0 then 315 else 225)

/-- Modelled from the spec: `ccw_angle(v1, v2)`, the counter-clockwise angle
by which `v1` must rotate to reach `v2` (so that `Edge.next_angle` equals
the interior angle at the shared vertex and the cut angle is measured CCW
from the edge direction, as the spec describes), through the octant
quantisation `octAngle`. -/
def ccw_angle (v1 v2 : Pt) : ℤ := (octAngle v2 - octAngle v1) % 360

/-- Modelled from the spec: `unit_vector(angle)` of the missing geometry
module, quantised to the eight principal directions (exact on multiples of
45 degrees, which covers every concrete input in this file). -/
def unit_vector (angle : ℤ) : Pt :=
  let a := angle % 360
  if a < 23 then ⟨1, 0⟩ else if a < 68 then ⟨1, 1⟩
  else if a < 113 then ⟨0, 1⟩ else if a < 158 then ⟨-1, 1⟩
  else if a < 203 then ⟨-1, 0⟩ else if a < 248 then ⟨-1, -1⟩
  else if a < 293 then ⟨0, -1⟩ else if a < 338 then ⟨1, -1⟩ else ⟨1, 0⟩

/-- Modelled from the spec: `project_point_on_segment(point, vector,
segment)` of the missing geometry module: the intersection of the ray from
`p` along `v` with the segment `[a, b]`, `none` when the ray misses the
segment or is parallel to it.  With `no_direction` the line through `p`
along `v` is intersected instead of the ray. -/
def project_point_on_segment (p : Pt) (v : Pt) (a b : Pt)
    (noDirection : Bool) : Option FPoint :=
  let w : Pt := ⟨b.x - a.x, b.y - a.y⟩
  let r : Pt := ⟨a.x - p.x, a.y - p.y⟩
  let den := cross v w
  if den = 0 then none
  else
    let t := cross r w
    let u := cross r v
    -- conditions t/den ≥ 0 (ray only) and 0 ≤ u/den ≤ 1
    let tOk := noDirection || decide (t * den ≥ 0)
    let uOk := decide (u * den ≥ 0) && decide (u.natAbs ≤ den.natAbs)
    if tOk && uOk then
      let dpos := if den > 0 then den else -den
      let tn := if den > 0 then t else -t
      some ⟨p.x * dpos + tn * v.x, p.y * dpos + tn * v.y, dpos⟩
    else none

/-! ## State: heaps, mesh dictionaries, modification log -/

/-- `MeshOps` of the source. -/
inductive MeshOp where
  | add : MeshOp
  | remove : MeshOp
  | insert : MeshOp
  deriving DecidableEq, Repr

/-- `MeshComponentType` of the source. -/
inductive CompType where
  | vertexT : CompType
  | edgeT : CompType
  | faceT : CompType
  deriving DecidableEq, Repr

/-- One entry of the modification log: operation, component reference and
optional related component reference (as `(type, id)` pairs). -/
structure ModRec where
  op : MeshOp
  comp : CompType × Nat
  other : Option (CompType × Nat)
  deriving DecidableEq, Repr

/-- The heap record of a `Vertex`: coordinates on the scaled grid, optional
outgoing edge, `mutable` flag, and the `_mesh is not None` flag. -/
structure VertexRec where
  x : ℤ
  y : ℤ
  edge : Option Nat
  isMutable : Bool
  inMesh : Bool
  deriving DecidableEq, Repr

/-- The heap record of an `Edge` (half-edge): `start` vertex id and the
optional `next` / `pair` / `face` references. -/
structure EdgeRec where
  start : Nat
  next : Option Nat
  pair : Option Nat
  face : Option Nat
  inMesh : Bool
  deriving DecidableEq, Repr

/-- The heap record of a `Face`: its anchor edge. -/
structure FaceRec where
  edge : Option Nat
  inMesh : Bool
  deriving DecidableEq, Repr

/-- Association list lookup (Python dictionary access semantics). -/
def alookup {α : Type} (k : Nat) : List (Nat × α) → Option α
  | [] => none
  | (k2, v) :: rest => if k = k2 then some v else alookup k rest

/-- Association list update with Python dictionary assignment semantics:
replace in place when the key is present, append otherwise. -/
def aset {α : Type} (k : Nat) (v : α) : List (Nat × α) → List (Nat × α)
  | [] => [(k, v)]
  | (k2, v2) :: rest =>
      if k = k2 then (k2, v) :: rest else (k2, v2) :: aset k v rest

/-- Association list deletion (`del d[k]`). -/
def adel {α : Type} (k : Nat) : List (Nat × α) → List (Nat × α)
  | [] => []
  | (k2, v2) :: rest => if k = k2 then rest else (k2, v2) :: adel k rest

/-- The whole mutable state: the three object heaps, the three mesh
dictionaries (`Mesh._vertices` / `_edges` / `_faces`, represented by their
insertion-ordered key lists; the objects themselves are in the heaps), the
boundary edge reference, the modification log, and the id counter.  The
watcher list is not represented: watchers are functions external to the
kernel state, and `watch` only reads and then clears the log. -/
structure MState where
  verts : List (Nat × VertexRec)
  edges : List (Nat × EdgeRec)
  faces : List (Nat × FaceRec)
  vdict : List Nat
  edict : List Nat
  fdict : List Nat
  boundary : Option Nat
  mods : List (Nat × ModRec)
  counter : Nat
  meshId : Nat
  deriving DecidableEq, Repr

/-- Result of running an embedded operation: a value and the final state, or
an error carrying the state at raise time (Python exceptions do not roll the
heap back). -/
inductive Res (α : Type) where
  | ok : α → MState → Res α
  | err : Err → MState → Res α
  deriving DecidableEq

/-- The state-and-exceptions interpretation monad. -/
def M (α : Type) : Type := MState → Res α

instance monadM : Monad M where
  pure a := fun s => .ok a s
  bind x f := fun s =>
    match x s with
    | .ok a s2 => f a s2
    | .err e s2 => .err e s2

/-- Raise an exception, carrying the current state. -/
def throwM {α : Type} (e : Err) : M α := fun s => .err e s

/-- The applied form of `bind`, used to run embedded programs inside
proofs. -/
theorem bind_app {α β : Type} (x : M α) (f : α → M β) (s : MState) :
    (x >>= f) s =
      match x s with
      | Res.ok a s2 => f a s2
      | Res.err er s2 => Res.err er s2 := rfl

/-- The applied form of `pure`. -/
theorem pure_app {α : Type} (a : α) (s : MState) :
    (pure a : M α) s = Res.ok a s := rfl

/-- Read the whole state. -/
def getS : M MState := fun s => .ok s s

/-- Replace the whole state. -/
def setS (s : MState) : M Unit := fun _ => .ok () s

/-- Apply a pure state transformation. -/
def modS (f : MState → MState) : M Unit := fun s => .ok () (f s)

/-- Read a vertex record, `keyErr` when the id is not allocated. -/
def getV (i : Nat) : M VertexRec := fun s =>
  match alookup i s.verts with
  | some v => .ok v s
  | none => .err .keyErr s

/-- Read an edge record. -/
def getE (i : Nat) : M EdgeRec := fun s =>
  match alookup i s.edges with
  | some v => .ok v s
  | none => .err .keyErr s

/-- Read a face record. -/
def getF (i : Nat) : M FaceRec := fun s =>
  match alookup i s.faces with
  | some v => .ok v s
  | none => .err .keyErr s

/-- Write a vertex record in the heap. -/
def putV (i : Nat) (v : VertexRec) : M Unit :=
  modS (fun s => { s with verts := aset i v s.verts })

/-- Write an edge record in the heap. -/
def putE (i : Nat) (v : EdgeRec) : M Unit :=
  modS (fun s => { s with edges := aset i v s.edges })

/-- Write a face record in the heap. -/
def putF (i : Nat) (v : FaceRec) : M Unit :=
  modS (fun s => { s with faces := aset i v s.faces })

/-- Dereference an `Option Nat` reference (`AttributeError` on `None`). -/
def deref (o : Option Nat) : M Nat :=
  match o with
  | some i => pure i
  | none => throwM .keyErr

/-- Run an action on each element of a list in order.  (All loops of this
development are spelled with the primitive recursors `List.rec` / `Nat.rec`:
the equation compiler's `brecOn` form and the generic monadic folds reduce
catastrophically slowly under the kernel's call-by-name evaluation, while
the primitive recursors step in constant time.) -/
def forList {α : Type} (f : α → M Unit) (l : List α) : M Unit :=
  List.rec (motive := fun _ => M Unit)
    (pure ())
    (fun x _ ih => do
      f x
      ih)
    l

/-- `Mesh.store_modification`.

Note on fidelity: the source reads `previous_op =
self._modifications[component.id][1]`, index `1` of the stored triple
`(op, (type, id), other_ref)`, so `previous_op` is bound to the
`(type, id)` pair and not to the operation stored at index `0`.  The
subsequent Python comparisons `previous_op == MeshOps.REMOVE` and
`previous_op in (MeshOps.ADD, MeshOps.INSERT)` compare a tuple with enum
members and are therefore always false: neither the raise nor the
deduplication branch is reachable, and the entry is always overwritten.
The embedding keeps the lookup and binds the pair exactly as the source
does; the two dead branches reduce to the fall-through store. -/
def store_modification (op : MeshOp) (comp : CompType × Nat)
    (other : Option (CompType × Nat)) : M Unit := do
  let s ← getS
  match alookup comp.2 s.mods with
  | some prev =>
      let previousOp : CompType × Nat := prev.comp
      -- `previous_op == MeshOps.REMOVE` : tuple vs enum, always false
      -- `previous_op in (MeshOps.ADD, MeshOps.INSERT)` : always false
      let _ := previousOp
      modS (fun s2 => { s2 with mods := aset comp.2 ⟨op, comp, other⟩ s2.mods })
  | none =>
      modS (fun s2 => { s2 with mods := aset comp.2 ⟨op, comp, other⟩ s2.mods })

/-- `Mesh.watch`: notify the watchers (external to the state) and clear the
modification log. -/
def watch : M Unit := modS (fun s => { s with mods := [] })

/-- `Mesh.get_id`: increment the counter and return it. -/
def newId : M Nat := fun s => .ok (s.counter + 1) { s with counter := s.counter + 1 }

/-- Insert an id into a mesh dictionary key list (Python dict assignment:
an existing key keeps its position, a new key is appended). -/
def dictInsert (i : Nat) (l : List Nat) : List Nat :=
  if i ∈ l then l else l ++ [i]

/-- `Mesh.add` for a vertex (the component record is already in the heap
with its id assigned): log the `ADD` and register the id. -/
def meshAddVertex (i : Nat) : M Unit := do
  store_modification .add (.vertexT, i) none
  modS (fun s => { s with vdict := dictInsert i s.vdict })

/-- `Mesh.add` for an edge. -/
def meshAddEdge (i : Nat) : M Unit := do
  store_modification .add (.edgeT, i) none
  modS (fun s => { s with edict := dictInsert i s.edict })

/-- `Mesh.add` for a face. -/
def meshAddFace (i : Nat) : M Unit := do
  store_modification .add (.faceT, i) none
  modS (fun s => { s with fdict := dictInsert i s.fdict })

/-- `Mesh.remove` for a vertex: a non-member is only logged (no mutation);
a member gets a `REMOVE` log entry, is deleted from the dictionary, and its
`mesh` reference is cleared. -/
def meshRemoveVertex (i : Nat) : M Unit := do
  let s ← getS
  if i ∈ s.vdict then do
    store_modification .remove (.vertexT, i) none
    modS (fun s2 => { s2 with vdict := s2.vdict.erase i })
    let vr ← getV i
    putV i { vr with inMesh := false }
  else pure ()

/-- `Mesh.remove` for an edge. -/
def meshRemoveEdge (i : Nat) : M Unit := do
  let s ← getS
  if i ∈ s.edict then do
    store_modification .remove (.edgeT, i) none
    modS (fun s2 => { s2 with edict := s2.edict.erase i })
    let er ← getE i
    putE i { er with inMesh := false }
  else pure ()

/-- `Mesh.remove` for a face. -/
def meshRemoveFace (i : Nat) : M Unit := do
  let s ← getS
  if i ∈ s.fdict then do
    store_modification .remove (.faceT, i) none
    modS (fun s2 => { s2 with fdict := s2.fdict.erase i })
    let fr ← getF i
    putF i { fr with inMesh := false }
  else pure ()

/-- `MeshComponent.remove_from_mesh` for a vertex: warn-and-return when the
component has no mesh, else `Mesh.remove`. -/
def removeVertexFromMesh (i : Nat) : M Unit := do
  let vr ← getV i
  if vr.inMesh then meshRemoveVertex i else pure ()

/-- `MeshComponent.remove_from_mesh` for an edge. -/
def removeEdgeFromMesh (i : Nat) : M Unit := do
  let er ← getE i
  if er.inMesh then meshRemoveEdge i else pure ()

/-- `MeshComponent.remove_from_mesh` for a face. -/
def removeFaceFromMesh (i : Nat) : M Unit := do
  let fr ← getF i
  if fr.inMesh then meshRemoveFace i else pure ()

/-! ## Component construction and property setters -/

/-- `Edge.check_size`: raise when the edge starts and ends at the same
vertex object (the length warning is only logged).  The end vertex is
`next.start` and is `None` when `next` is unset. -/
def check_size (i : Nat) : M Unit := do
  let er ← getE i
  match er.next with
  | none => pure ()
  | some n => do
      let nr ← getE n
      if nr.start = er.start then throwM .valueErr else pure ()

/-- Allocate the id of a new component: the explicit `_id` when given,
otherwise `Mesh.get_id`. -/
def allocId (idOpt : Option Nat) : M Nat :=
  match idOpt with
  | some i => pure i
  | none => newId

/-- `Vertex.__init__`: the coordinates are already on the truncation grid
(`truncFP` is applied by the callers that construct from exact transient
points, matching the `truncate` calls of the source constructor); the record
is written and the vertex registers itself with the mesh. -/
def newVertex (p : Pt) (edge : Option Nat) (isMutable : Bool)
    (idOpt : Option Nat) : M Nat := do
  let i ← allocId idOpt
  putV i ⟨p.x, p.y, edge, isMutable, true⟩
  meshAddVertex i
  pure i

/-- `Edge.__init__`: write the record, make the pair reciprocal when a pair
is provided, register with the mesh, then `check_size`. -/
def newEdge (start : Nat) (next pairArg face : Option Nat)
    (idOpt : Option Nat) : M Nat := do
  let i ← allocId idOpt
  putE i ⟨start, next, pairArg, face, true⟩
  match pairArg with
  | some p => do
      let pr ← getE p
      putE p { pr with pair := some i }
  | none => pure ()
  meshAddEdge i
  check_size i
  pure i

/-- `Face.__init__`: write the record and register with the mesh. -/
def newFace (edge : Option Nat) (idOpt : Option Nat) : M Nat := do
  let i ← allocId idOpt
  putF i ⟨edge, true⟩
  meshAddFace i
  pure i

/-- `Edge.start` setter (no checks in the source). -/
def setStartE (i v : Nat) : M Unit := do
  let er ← getE i
  putE i { er with start := v }

/-- `Edge.next` setter: assign, then `check_size`. -/
def setNextE (i : Nat) (v : Option Nat) : M Unit := do
  let er ← getE i
  putE i { er with next := v }
  check_size i

/-- `Edge.pair` setter: assign and make the other half-edge reciprocal. -/
def setPairE (i p : Nat) : M Unit := do
  let er ← getE i
  putE i { er with pair := some p }
  let pr ← getE p
  putE p { pr with pair := some i }

/-- `Edge.face` setter. -/
def setFaceE (i : Nat) (v : Option Nat) : M Unit := do
  let er ← getE i
  putE i { er with face := v }

/-- `Vertex.edge` setter. -/
def setEdgeV (i : Nat) (v : Option Nat) : M Unit := do
  let vr ← getV i
  putV i { vr with edge := v }

/-- `Face.edge` setter. -/
def setEdgeF (i : Nat) (v : Option Nat) : M Unit := do
  let fr ← getF i
  putF i { fr with edge := v }

/-- `Mesh.boundary_edge` setter: raise when the assigned edge has a face. -/
def setBoundaryEdge (i : Nat) : M Unit := do
  let er ← getE i
  if er.face ≠ none then throwM .valueErr
  else modS (fun s => { s with boundary := some i })

/-- `Edge.end`: `next.start`, `AttributeError` (`keyErr`) when `next` is
`None`. -/
def endOf (i : Nat) : M Nat := do
  let er ← getE i
  let n ← deref er.next
  let nr ← getE n
  pure nr.start

/-- The geometric vector of an edge (`Edge.vector`), scaled coordinates. -/
def vectorOf (i : Nat) : M Pt := do
  let er ← getE i
  let sv ← getV er.start
  let e ← endOf i
  let ev ← getV e
  pure ⟨ev.x - sv.x, ev.y - sv.y⟩

/-- The coordinates of a vertex. -/
def coordsOf (i : Nat) : M Pt := do
  let vr ← getV i
  pure ⟨vr.x, vr.y⟩

/-! ## Traversals (with explicit fuel for the source's unbounded loops) -/

/-- Auxiliary loop of `Edge.previous`: walk the `next` chain from `cur`
until the edge whose `next` is `target`; a missing `next` raises (the
source raises on a badly formed face). -/
def prevAux (target fuel : Nat) : Nat → M Nat :=
  Nat.rec (motive := fun _ => Nat → M Nat)
    (fun _ => throwM .fuelErr)
    (fun _ ih cur => do
      let er ← getE cur
      match er.next with
      | none => throwM .valueErr
      | some nx => if nx = target then pure cur else ih nx)
    fuel

/-- `Edge.previous`: loop through the whole face cycle. -/
def previousE (fuel e : Nat) : M Nat := prevAux e fuel e

/-- `Edge.ccw`: `self.previous.pair`. -/
def ccwE (fuel e : Nat) : M Nat := do
  let p ← previousE fuel e
  let pr ← getE p
  deref pr.pair

/-- `Edge.cw`: `self.pair.next`. -/
def cwE (e : Nat) : M Nat := do
  let er ← getE e
  let p ← deref er.pair
  let pr ← getE p
  deref pr.next

/-- Auxiliary loop of `Edge.siblings`: follow `next` until back at the
starting edge, collecting the cycle. -/
def siblingsAux (start fuel : Nat) : Nat → List Nat → M (List Nat) :=
  Nat.rec (motive := fun _ => Nat → List Nat → M (List Nat))
    (fun _ _ => throwM .fuelErr)
    (fun _ ih cur acc => do
      let er ← getE cur
      let nx ← deref er.next
      if nx = start then pure (acc.reverse)
      else ih nx (nx :: acc))
    fuel

/-- `Edge.siblings` as a snapshot list (`list(edge.siblings)`), starting
with the edge itself. -/
def siblingsList (fuel e : Nat) : M (List Nat) := siblingsAux e fuel e [e]

/-- Auxiliary loop of `Vertex.edges`: follow `previous.pair` around the
vertex until back at the anchor edge. -/
def fanAux (e0 fuel : Nat) : Nat → List Nat → M (List Nat) :=
  Nat.rec (motive := fun _ => Nat → List Nat → M (List Nat))
    (fun _ _ => throwM .fuelErr)
    (fun k ih cur acc => do
      let p ← previousE k cur
      let pr ← getE p
      let nx ← deref pr.pair
      if nx = e0 then pure (acc.reverse)
      else ih nx (nx :: acc))
    fuel

/-- `list(vertex.edges)`: the outgoing edges of a vertex, starting from its
anchor edge (`AttributeError` when the vertex has no edge). -/
def fanList (fuel v : Nat) : M (List Nat) := do
  let vr ← getV v
  let e0 ← deref vr.edge
  fanAux e0 fuel e0 [e0]

/-! ## `preserve_references`, `snap_to`, `split`, `link` -/

/-- `Edge.preserve_references(other=None)`: re-point the face anchor, the
mesh boundary edge reference and the start vertex anchor away from the edge
about to be dropped, to `other` when provided and to the source's defaults
(`self.next`, `self.next`, `self.ccw`) otherwise. -/
def preserve_references (fuel : Nat) (e : Nat) (other : Option Nat) : M Unit := do
  let er ← getE e
  -- face reference
  match er.face with
  | some f => do
      let fr ← getF f
      if fr.edge = some e then
        setEdgeF f (match other with | some o => some o | none => er.next)
      else pure ()
  | none => pure ()
  -- boundary edge reference
  let s ← getS
  if s.boundary = some e then do
    let tgt ← match other with
      | some o => pure o
      | none => deref er.next
    setBoundaryEdge tgt
  else pure ()
  -- vertex reference
  let sv ← getV er.start
  if sv.edge = some e then do
    let tgt ← match other with
      | some o => pure o
      | none => ccwE fuel e
    setEdgeV er.start (some tgt)
  else pure ()

/-- Auxiliary loop of `Vertex.snap_to` over the candidate list. -/
def snapToAux (fuel : Nat) (v : Nat) (cands : List Nat) : M Nat :=
  List.rec (motive := fun _ => M Nat)
    (pure v)
    (fun other _ ih => do
      if v = other then pure v
      else do
        let vc ← coordsOf v
        let oc ← coordsOf other
        if is_close vc oc then do
          let vr ← getV v
          if vr.edge ≠ none then do
            let fan ← fanList fuel v
            forList (fun e => setStartE e other) fan
            setEdgeV v none
          else pure ()
          let vr2 ← getV v
          if vr2.inMesh then meshRemoveVertex v else pure ()
          pure other
        else ih)
    cands

/-- `Vertex.snap_to(*others)`: return the first candidate within the
proximity epsilon after rewiring every edge starting at the vertex onto it
and detaching the vertex from the mesh; return the vertex itself when no
candidate is close (or when the candidate is the vertex itself). -/
def snap_to (fuel : Nat) (v : Nat) (cands : List Nat) : M Nat :=
  snapToAux fuel v cands

/-- `Edge.split(vertex)`: snap the vertex to the edge extremities; at an
extremity return the existing edge (`self` / `self.next`) without mutation;
otherwise create the two new half-edges and rewire, returning the new edge
starting at the vertex. -/
def split (fuel : Nat) (e v : Nat) : M Nat := do
  let er ← getE e
  let en ← endOf e
  let v2 ← snap_to fuel v [er.start, en]
  if v2 = er.start then pure e
  else do
    let en2 ← endOf e
    if v2 = en2 then do
      let er2 ← getE e
      deref er2.next
    else do
      let er2 ← getE e
      let next_edge := er2.next
      let ep ← deref er2.pair
      let epr ← getE ep
      let next_edge_pair := epr.next
      let new_edge ← newEdge v2 next_edge (some ep) er2.face none
      let eprF ← getE ep
      let new_edge_pair ← newEdge v2 next_edge_pair (some e) eprF.face none
      let vr ← getV v2
      if vr.edge = none then setEdgeV v2 (some new_edge) else pure ()
      setNextE new_edge_pair next_edge_pair
      setNextE new_edge next_edge
      setNextE e (some new_edge)
      setNextE ep (some new_edge_pair)
      store_modification .insert (.edgeT, new_edge) (some (.edgeT, e))
      store_modification .insert (.edgeT, new_edge_pair) (some (.edgeT, ep))
      pure new_edge

/-- `Edge.link(other)`: raise when the two edges are not on the same face;
no-op (`none`) when they are already linked or share their end vertex;
otherwise create the linking edge pair, split the face and return the new
face. -/
def link (fuel : Nat) (e o : Nat) : M (Option Nat) := do
  let er ← getE e
  let orr ← getE o
  if er.face ≠ orr.face then throwM .valueErr
  else if orr.next = some e || er.next = some o then pure none
  else do
    let eEnd ← endOf e
    let oEnd ← endOf o
    if eEnd = oEnd then pure none
    else do
      let new_edge ← newEdge eEnd orr.next none er.face none
      let f ← deref er.face
      setEdgeF f (some e)
      let er3 ← getE e
      let npair ← newEdge oEnd er3.next (some new_edge) none none
      setPairE new_edge npair
      setNextE e (some new_edge)
      setNextE o (some npair)
      let new_face ← newFace (some npair) none
      let sibs ← siblingsList fuel npair
      forList (fun ed => setFaceE ed (some new_face)) sibs
      let er4 ← getE e
      store_modification .insert (.faceT, new_face)
        (match er4.face with | some ff => some (.faceT, ff) | none => none)
      pure (some new_face)

/-! ## Angle properties of edges -/

/-- `Edge.next_angle`: `ccw_angle(self.next.vector, self.opposite_vector)`,
the interior angle at the end vertex. -/
def next_angle (e : Nat) : M ℤ := do
  let er ← getE e
  let nx ← deref er.next
  let nv ← vectorOf nx
  let v ← vectorOf e
  pure (ccw_angle nv (opposite_vector v))

/-- `Edge.previous_angle`:
`ccw_angle(self.vector, self.previous.opposite_vector)`. -/
def previous_angle (fuel e : Nat) : M ℤ := do
  let v ← vectorOf e
  let prev ← previousE fuel e
  let pv ← vectorOf prev
  pure (ccw_angle v (opposite_vector pv))

/-- `Edge.next_is_aligned`: the next edge is within the angular epsilon of
continuing straight. -/
def next_is_aligned (e : Nat) : M Bool := do
  let a ← next_angle e
  pure (pseudo_equal a 180 angleEps)

/-- `Edge._angle_inside_face(angle)`:
`180 - MIN_ANGLE > angle > 180 - next_angle + MIN_ANGLE`. -/
def angle_inside_face (e : Nat) (angle : ℤ) : M Bool := do
  let na ← next_angle e
  pure (decide (angle < 180 - minAngle) && decide (180 - na + minAngle < angle))

/-! ## `Vertex.clean`, `Edge.collapse`, `Edge.remove` -/

/-- `Vertex.clean`: merge the two aligned edges of a mutable two-edge vertex
and drop the vertex; the result is the Python return value, with `none`
embedding the implicit `return None` of the fall-through paths and
`some l` embedding an explicit `return l`. -/
def vclean (fuel v : Nat) : M (Option (List Nat)) := do
  let vr ← getV v
  if ¬vr.isMutable then pure (some [])
  else do
    let edges ← fanList fuel v
    if edges.length > 2 then pure (some [])
    else if edges.length = 2 then do
      let vr1 ← getV v
      let e0 ← deref vr1.edge
      let prev ← previousE fuel e0
      let pr ← getE prev
      if pr.pair ≠ some (edges.getD 1 0) then throwM .valueErr
      else do
        let aligned ← next_is_aligned prev
        if aligned then do
          -- edge.preserve_references(); edge.pair.next.preserve_references()
          preserve_references fuel e0 none
          let e0r ← getE e0
          let p ← deref e0r.pair
          let prr ← getE p
          let e2 ← deref prr.next
          preserve_references fuel e2 none
          -- removes both edges from the mesh
          removeEdgeFromMesh e0
          let e0r2 ← getE e0
          let p2 ← deref e0r2.pair
          let prr2 ← getE p2
          let e2b ← deref prr2.next
          removeEdgeFromMesh e2b
          -- previous_edge.next = edge.next
          let e0r3 ← getE e0
          setNextE prev e0r3.next
          -- edge.pair.next = edge.pair.next.next
          let e0r4 ← getE e0
          let p3 ← deref e0r4.pair
          let p3r ← getE p3
          let pn ← deref p3r.next
          let pnr ← getE pn
          setNextE p3 pnr.next
          -- edge.pair.pair = previous_edge; previous_edge.pair = edge.pair
          setPairE p3 prev
          let e0r5 ← getE e0
          let p4 ← deref e0r5.pair
          setPairE prev p4
          -- self.remove_from_mesh()
          removeVertexFromMesh v
          -- return [edge, edge.pair.next]
          let e0r6 ← getE e0
          let p5 ← deref e0r6.pair
          let p5r ← getE p5
          let pn5 ← deref p5r.next
          pure (some [e0, pn5])
        else pure none
    else pure none

/-- `Edge.collapse`: snap the start vertex onto the end vertex, preserve the
references held on the edge and its pair, stitch the `next` pointers and
drop both half-edges from the mesh. -/
def collapse (fuel e : Nat) : M Unit := do
  let er ← getE e
  let en ← endOf e
  let newStart ← snap_to fuel er.start [en]
  setStartE e newStart
  preserve_references fuel e none
  let er2 ← getE e
  let p ← deref er2.pair
  preserve_references fuel p none
  -- self.previous.next = self.next
  let prev ← previousE fuel e
  let er3 ← getE e
  setNextE prev er3.next
  -- self.pair.previous.next = self.pair.next
  let pprev ← previousE fuel p
  let pr ← getE p
  setNextE pprev pr.next
  removeEdgeFromMesh e
  removeEdgeFromMesh p

/-- `Edge.is_internal`: the edge and its pair belong to the same face. -/
def is_internal (e : Nat) : M Bool := do
  let er ← getE e
  let p ← deref er.pair
  let pr ← getE p
  pure (er.face = pr.face)

/-- The trailing sweep of `Edge.remove`: find the first edge of the cycle
whose `next` is its `pair` (the loop `for edge in remaining_face.edges`
with its `break`; the walked prefix is on unmutated state, so scanning the
snapshot is equivalent). -/
def findIsolated (l : List Nat) : M (Option Nat) :=
  List.rec (motive := fun _ => M (Option Nat))
    (pure none)
    (fun ed _ ih => do
      let edr ← getE ed
      if edr.next = edr.pair then pure (some ed) else ih)
    l

/-- `Edge.remove(clean_vertex=True)`: merge the two faces adjacent to the
edge.  An internal (hole-bridging) edge may only be removed when it is an
isolated dangling edge, otherwise the source raises before any mutation.
The trailing sweep removes a remaining isolated edge of the surviving face
by a recursive call. -/
def remove (fuelTop : Nat) : Nat → Bool → M (Option Nat) :=
  Nat.rec (motive := fun _ => Nat → Bool → M (Option Nat))
    (fun _ _ => throwM .fuelErr)
    (fun fuel ih e cleanVertex => do
      let er ← getE e
      let p ← deref er.pair
      let pr ← getE p
      let other_face := pr.face
      let removed_face := if er.face ≠ none then er.face else other_face
      let remaining_face := if er.face ≠ none then other_face else none
      -- (boundary removal is only a logged warning in the source)
      let internal ← is_internal e
      if internal then do
        let er1 ← getE e
        let pr1 ← getE p
        if er1.next ≠ some p ∧ pr1.next ≠ some e then throwM .valueErr
        else do
          let isolated := if er1.next = some p then e else p
          let isoR ← getE isolated
          let isoPair ← deref isoR.pair
          let isoPairR ← getE isoPair
          let arg ← deref isoPairR.next
          preserve_references fuel isolated (some arg)
          let isoPairR2 ← getE isoPair
          let arg2 ← deref isoPairR2.next
          preserve_references fuel isoPair (some arg2)
          -- isolated_edge.previous.next = isolated_edge.pair.next
          let prevIso ← previousE fuel isolated
          let isoPairR3 ← getE isoPair
          setNextE prevIso isoPairR3.next
          -- isolated_edge.end.remove_from_mesh()
          let isoEnd ← endOf isolated
          removeVertexFromMesh isoEnd
          -- isolated_edge.start.clean()
          let isoR2 ← getE isolated
          let _ ← vclean fuel isoR2.start
          pure ()
      else do
        preserve_references fuel e none
        preserve_references fuel p none
        -- for edge in removed_face.edges: edge.face = remaining_face
        let rf ← deref removed_face
        let rfr ← getF rf
        let anchor ← deref rfr.edge
        let sibs ← siblingsList fuel anchor
        forList (fun ed => setFaceE ed remaining_face) sibs
        removeFaceFromMesh rf
        -- self.pair.previous.next = self.next ; self.previous.next = self.pair.next
        let pprev ← previousE fuel p
        let er2 ← getE e
        setNextE pprev er2.next
        let prev ← previousE fuel e
        let pr2 ← getE p
        setNextE prev pr2.next
        if cleanVertex then do
          let er3 ← getE e
          let _ ← vclean fuel er3.start
          let eEnd ← endOf e
          let _ ← vclean fuel eEnd
          pure ()
        else pure ()
      -- Finish: remove the edge and its pair from the mesh
      removeEdgeFromMesh e
      let erF ← getE e
      let pF ← deref erF.pair
      removeEdgeFromMesh pF
      -- trailing sweep over the remaining face for an isolated edge
      let rf ← deref remaining_face
      let rfr ← getF rf
      let anchor ← deref rfr.edge
      let sibs ← siblingsList fuel anchor
      let isolated ← findIsolated sibs
      match isolated with
      | some ed => do
          let _ ← ih ed true
          pure remaining_face
      | none => pure remaining_face)
    fuelTop

/-! ## `Vertex.project_point`, `Edge.intersect`, `Edge.cut` -/

/-- Inner loop of `Vertex.project_point`: scan the face edges for the
nearest ray intersection, skipping edges facing away from the ray and edges
incident to the vertex; the accumulator holds the best
`(edge, exact point, squared distance)` so far. -/
def projLoop (v : Nat) (vec : Pt) (l : List Nat) :
    Option (Nat × FPoint × (ℤ × ℤ)) → M (Option (Nat × FPoint × (ℤ × ℤ))) :=
  List.rec
    (motive := fun _ =>
      Option (Nat × FPoint × (ℤ × ℤ)) → M (Option (Nat × FPoint × (ℤ × ℤ))))
    (fun acc => pure acc)
    (fun ed _ ih acc => do
      let evec ← vectorOf ed
      if dot_product (normalVec evec) vec ≥ 0 then ih acc
      else do
        let er ← getE ed
        let eEnd ← endOf ed
        if v = er.start ∨ v = eEnd then ih acc
        else do
          let vc ← coordsOf v
          let sc ← coordsOf er.start
          let ec ← coordsOf eEnd
          match project_point_on_segment vc vec sc ec false with
          | none => ih acc
          | some pp =>
              let dSq := distSqF pp vc
              let better := match acc with
                | none => true
                | some (_, _, best) => fracLt dSq best
              if better then ih (some (ed, pp, dSq))
              else ih acc)
    l

/-- `Vertex.project_point(face, vector)`: the nearest boundary intersection
of the ray from the vertex; creates the intersection vertex in the mesh and
returns it with the hit edge and the (squared) distance. -/
def project_point (fuel v f : Nat) (vec : Pt) :
    M (Option (Nat × Nat × (ℤ × ℤ))) := do
  let fr ← getF f
  let anchor ← deref fr.edge
  let edges ← siblingsList fuel anchor
  let best ← projLoop v vec edges none
  match best with
  | none => pure none
  | some (ed, pp, dSq) => do
      let nv ← newVertex (truncFP pp) none true none
      pure (some (nv, ed, dSq))

/-- `Edge.intersect(vector, max_length)`: project the edge end onto the face
boundary along `vector`, enforce the optional maximal length (carried
squared), split the destination edge at the intersection vertex and return
the edge before the intersection.  (The source's `closest_edge is None`
check after the split is dead code: `Edge.split` returns an edge on every
path.) -/
def intersect (fuel e : Nat) (vec : Pt) (maxLenSq : Option (ℤ × ℤ)) :
    M (Option Nat) := do
  let er ← getE e
  let eEnd ← endOf e
  let f ← deref er.face
  let res ← project_point fuel eEnd f vec
  match res with
  | none => pure none
  | some (iv, ce, dSq) =>
      let exceeded := match maxLenSq with
        | some ml => fracLt ml dSq
        | none => false
      if exceeded then do
        removeVertexFromMesh iv
        pure none
      else do
        let ce2 ← split fuel ce iv
        let prevCe ← previousE fuel ce2
        pure (some prevCe)

/-- `Edge.cut(vertex, angle, vector, max_length)`: the central topological
primitive; returns the two edges to continue cutting from and the newly
created face, or `none` on the failure paths of the source. -/
def cut (fuel e v : Nat) (angleArg : ℤ) (vecOpt : Option Pt)
    (maxLenSq : Option (ℤ × ℤ)) : M (Option (Nat × Nat × Option Nat)) := do
  let er ← getE e
  if er.face = none then pure none
  else do
    let selfVec ← vectorOf e
    let angle := match vecOpt with
      | some vec => ccw_angle selfVec vec
      | none => angleArg
    let en ← endOf e
    let v2 ← snap_to fuel v [er.start, en]
    let fe_a ←
      if v2 = er.start then do
        let prev ← previousE fuel e
        let pa ← previous_angle fuel e
        pure (prev, angle + 180 - pa)
      else pure (e, angle)
    let first_edge := fe_a.1
    let angle2 := fe_a.2
    let feEnd ← endOf first_edge
    let earlyStop ←
      if v2 = feEnd then do
        let ok ← angle_inside_face first_edge angle2
        pure (!ok)
      else pure false
    if earlyStop then pure none
    else do
      let _ ← split fuel first_edge v2
      let line_vector ← match vecOpt with
        | some vec => pure vec
        | none => do
            let sv ← vectorOf e
            pure (unit_vector (octAngle sv + angle2))
      let closest ← intersect fuel first_edge line_vector maxLenSq
      match closest with
      | none => pure none
      | some ce => do
          let fer ← getE first_edge
          let ff ← deref fer.face
          setEdgeF ff (some first_edge)
          let cer ← getE ce
          let closest_edge_next ← deref cer.next
          let fer2 ← getE first_edge
          let first_edge_next ← deref fer2.next
          let new_face ← link fuel first_edge ce
          let result_cen ←
            match new_face with
            | none => do
                let cer2 ← getE ce
                if cer2.next = some first_edge then do
                  let fer3 ← getE first_edge
                  let p ← deref fer3.pair
                  let pr ← getE p
                  deref pr.next
                else pure closest_edge_next
            | some _ => pure closest_edge_next
          pure (some (first_edge_next, result_cen, new_face))

/-! ## Serialization -/

/-- `Mesh.get_face`. -/
def getFaceD (i : Nat) : M FaceRec := do
  let s ← getS
  if i ∈ s.fdict then getF i else throwM .keyErr

/-- `Mesh.clear`: reset the dictionaries, boundary reference, watcher list
and modification log (the counter is untouched; stale heap objects survive
exactly like unreachable Python objects). -/
def clearM : M Unit :=
  modS (fun s => { s with vdict := [], edict := [], fdict := [],
                          boundary := none, mods := [] })

/-- Orientation of the triangle `a b c` (positive when counter-clockwise). -/
def orient (a b c : Pt) : ℤ :=
  cross ⟨b.x - a.x, b.y - a.y⟩ ⟨c.x - a.x, c.y - a.y⟩

/-- Twice the signed area of a polygon (shoelace). -/
def signedArea2 (pts : List Pt) : ℤ :=
  match pts with
  | [] => 0
  | p0 :: _ =>
      let rec go : List Pt → ℤ
        | [] => 0
        | [q] => cross q p0
        | q :: r :: rest => cross q r + go (r :: rest)
      go pts

/-- Modelled from the spec: the shapely `LinearRing.is_ccw` test used by
`new_face_from_boundary` — positive signed area. -/
def isCCW (pts : List Pt) : Bool := signedArea2 pts > 0

/-- Whether point `c` lies on the closed segment `[a, b]`. -/
def onSegment (a b c : Pt) : Bool :=
  orient a b c = 0 &&
  min a.x b.x ≤ c.x && c.x ≤ max a.x b.x &&
  min a.y b.y ≤ c.y && c.y ≤ max a.y b.y

/-- Whether the closed segments `[a, b]` and `[c, d]` intersect. -/
def segsIntersect (a b c d : Pt) : Bool :=
  let o1 := orient a b c
  let o2 := orient a b d
  let o3 := orient c d a
  let o4 := orient c d b
  (decide (o1 * o2 < 0) && decide (o3 * o4 < 0)) ||
  onSegment a b c || onSegment a b d || onSegment c d a || onSegment c d b

/-- Modelled from the spec: the shapely `LinearRing.is_simple` test used by
`new_face_from_boundary` ("the perimeter crosses itself"): no two
non-adjacent boundary segments of the closed ring intersect. -/
def isSimplePoly (pts : List Pt) : Bool :=
  let n := pts.length
  let seg := fun i => (pts.getD i ⟨0, 0⟩, pts.getD ((i + 1) % n) ⟨0, 0⟩)
  (List.range n).all (fun i =>
    (List.range n).all (fun j =>
      if i < j ∧ j ≠ (i + 1) % n ∧ i ≠ (j + 1) % n then
        let s1 := seg i
        let s2 := seg j
        !segsIntersect s1.1 s1.2 s2.1 s2.2
      else true))

/-- The body of the construction loop of `new_face_from_boundary`: one
boundary point adds a vertex, its face edge and the pair of the previous
face edge; the accumulator carries `(previous_edge, previous_pair_edge)`. -/
def boundaryLoop (initial_face : Nat) (points : List Pt) :
    (Nat × Option Nat) → M (Nat × Option Nat) :=
  List.rec (motive := fun _ => (Nat × Option Nat) → M (Nat × Option Nat))
    (fun acc => pure acc)
    (fun point _ ih acc => do
      let previous_edge := acc.1
      let previous_pair_edge := acc.2
      let new_vertex ← newVertex point none true none
      let new_edge ← newEdge new_vertex none none (some initial_face) none
      setEdgeV new_vertex (some new_edge)
      setNextE previous_edge (some new_edge)
      let new_pair_edge ←
        newEdge new_vertex previous_pair_edge (some previous_edge) none none
      ih (new_edge, some new_pair_edge))
    points

/-- `Mesh.new_face_from_boundary(boundary)`: validity checks, then build
the face cycle and its paired boundary half-edges. -/
def new_face_from_boundary (boundary : List Pt) : M Nat := do
  if boundary.length ≤ 2 then throwM .valueErr
  else if ¬isCCW boundary then throwM .valueErr
  else if ¬isSimplePoly boundary then throwM .valueErr
  else do
    let p0 := boundary.getD 0 ⟨0, 0⟩
    let initial_vertex ← newVertex p0 none false none
    let initial_edge ← newEdge initial_vertex none none none none
    let initial_face ← newFace (some initial_edge) none
    setFaceE initial_edge (some initial_face)
    setEdgeV initial_vertex (some initial_edge)
    let st ← boundaryLoop initial_face boundary.tail (initial_edge, none)
    setNextE st.1 (some initial_edge)
    let new_pair_edge ← newEdge initial_vertex st.2 (some st.1) none none
    let ier ← getE initial_edge
    let ip ← deref ier.pair
    setNextE ip (some new_pair_edge)
    pure initial_face

/-- `Mesh.from_boundary`: clear, build the face, and set the boundary edge
to the pair of the face's anchor edge. -/
def from_boundary (boundary : List Pt) : M Nat := do
  clearM
  let f ← new_face_from_boundary boundary
  let fr ← getF f
  let anchor ← deref fr.edge
  let ar ← getE anchor
  let ap ← deref ar.pair
  setBoundaryEdge ap
  pure f

/-- The pristine state of `Mesh.__init__` (mesh id `0` standing in for the
uuid). -/
def emptyMState : MState :=
  ⟨[], [], [], [], [], [], none, [], 0, 0⟩

/-! ## Concrete meshes used as inputs of the claim theorems

All coordinates are scaled by `10 ^ 4`: the outer square below is the
100 × 100 square `(0,0) (100,0) (100,100) (0,100)`. -/

/-- The boundary of a 100 × 100 square. -/
def sqPts : List Pt := [⟨0, 0⟩, ⟨1000000, 0⟩, ⟨1000000, 1000000⟩, ⟨0, 1000000⟩]

/-- The square mesh produced by `Mesh().from_boundary(sqPts)`: vertices
`1 4 7 10`, face `3` with cycle `2 → 5 → 8 → 11`, boundary (`None`-face)
cycle `6 → 13 → 12 → 9`, boundary edge `6`. -/
def sqS : MState :=
  match from_boundary sqPts emptyMState with
  | .ok _ s => s
  | .err _ s => s

/-- The pair-reciprocity invariant of the spec, as checked by `Mesh.check`:
every edge of the mesh dictionary has a pair, that pair lives in the mesh,
and its pair reference points back (`edge.pair.pair is edge`). -/
def pairOK (s : MState) : Bool :=
  s.edict.all (fun i =>
    match alookup i s.edges with
    | some er =>
        match er.pair with
        | some p =>
            decide (p ∈ s.edict) &&
            (match alookup p s.edges with
             | some pr2 => decide (pr2.pair = some i)
             | none => false)
        | none => false
    | none => false)

/-- The square mesh with a short dangling edge hanging from its corner
`B = (100, 0)` (vertex `4`) to a lone interior vertex `14` at
`(99.5, 0.5)` — the degenerate near-zero-length configuration that
`Face.simplify` eliminates through `Edge.collapse`.  Half-edges `15`
(`B → 14`) and `16` (`14 → B`) are spliced into the face cycle
(`2 → 15 → 16 → 5 → 8 → 11`), and the lone vertex's anchor is its only
outgoing edge `16`. -/
def dangS : MState :=
  { sqS with
    verts := aset 14 ⟨995000, 5000, some 16, true, true⟩ sqS.verts,
    edges :=
      aset 16 ⟨14, some 5, some 15, some 3, true⟩
        (aset 15 ⟨4, some 16, some 16, some 3, true⟩
          (aset 2 ⟨1, some 15, some 6, some 3, true⟩ sqS.edges)),
    vdict := sqS.vdict ++ [14],
    edict := sqS.edict ++ [15, 16],
    counter := 16,
    mods := [] }

/-- The square mesh with a fully enclosed square hole
`(20,20) (60,20) (60,60) (20,60)` (vertices `14 15 16 17`), bridged to the
outer boundary through vertex `18 = (20, 0)` exactly as
`Face._insert_enclosed_face` wires it: the container face `3` has the cycle
`2 → 20 → 22 → 23 → 24 → 25 → 21 → 19 → 5 → 8 → 11` (edges `20`/`21` are
the internal bridge pair, `22 … 25` the hole boundary run clockwise), and
the hole face `26` has the cycle `27 → 28 → 29 → 30`. -/
def holeS : MState :=
  { sqS with
    verts :=
      aset 18 ⟨200000, 0, some 19, true, true⟩
        (aset 17 ⟨200000, 600000, some 23, true, true⟩
          (aset 16 ⟨600000, 600000, some 24, true, true⟩
            (aset 15 ⟨600000, 200000, some 28, true, true⟩
              (aset 14 ⟨200000, 200000, some 22, true, true⟩ sqS.verts)))),
    edges :=
      aset 31 ⟨18, some 13, some 2, none, true⟩
        (aset 9 ⟨7, some 6, some 5, none, true⟩
          (aset 6 ⟨4, some 31, some 19, none, true⟩
            (aset 30 ⟨17, some 27, some 22, some 26, true⟩
              (aset 29 ⟨16, some 30, some 23, some 26, true⟩
                (aset 28 ⟨15, some 29, some 24, some 26, true⟩
                  (aset 27 ⟨14, some 28, some 25, some 26, true⟩
                    (aset 25 ⟨15, some 21, some 27, some 3, true⟩
                      (aset 24 ⟨16, some 25, some 28, some 3, true⟩
                        (aset 23 ⟨17, some 24, some 29, some 3, true⟩
                          (aset 22 ⟨14, some 23, some 30, some 3, true⟩
                            (aset 21 ⟨14, some 19, some 20, some 3, true⟩
                              (aset 20 ⟨18, some 22, some 21, some 3, true⟩
                                (aset 19 ⟨18, some 5, some 6, some 3, true⟩
                                  (aset 2 ⟨1, some 20, some 31, some 3, true⟩
                                    sqS.edges)))))))))))))),
    faces := aset 26 ⟨some 27, true⟩ sqS.faces,
    vdict := sqS.vdict ++ [14, 15, 16, 17, 18],
    edict := sqS.edict ++ [19, 20, 21, 22, 23, 24, 25, 27, 28, 29, 30, 31],
    fdict := sqS.fdict ++ [26],
    counter := 31,
    mods := [] }

/-- The referential-integrity conditions of claim C7 as a decidable check,
mirroring the corresponding audits of `Mesh.check`: every face's anchor edge
is a mesh edge attributed to that face, the mesh boundary edge is a mesh
edge with face `None`, and every vertex's anchor edge (when set) is a mesh
edge starting at that vertex. -/
def refsOK (s : MState) : Bool :=
  s.fdict.all (fun f =>
    match alookup f s.faces with
    | some fr =>
        match fr.edge with
        | some a =>
            decide (a ∈ s.edict) &&
            (match alookup a s.edges with
             | some ar => decide (ar.face = some f)
             | none => false)
        | none => false
    | none => false) &&
  (match s.boundary with
   | some b =>
       decide (b ∈ s.edict) &&
       (match alookup b s.edges with
        | some br => decide (br.face = none)
        | none => false)
   | none => true) &&
  s.vdict.all (fun v =>
    match alookup v s.verts with
    | some vr =>
        match vr.edge with
        | some e =>
            decide (e ∈ s.edict) &&
            (match alookup e s.edges with
             | some er => decide (er.start = v)
             | none => false)
        | none => true
    | none => false)

/-! ## Claim theorems -/

/-- C10 (code_bug evidence).  `Mesh.store_modification` reads
`self._modifications[component.id][1]` — the `(type, id)` pair at index 1
of the stored triple, not the operation at index 0 — so its documented
algebra is dead code: recording `ADD` then `REMOVE` of face 1 does not
erase the two entries but leaves a `REMOVE` entry for the watchers, and a
further operation after a logged `REMOVE` does not raise but silently
overwrites the entry.  Only the third part of the claim holds: after
`watch()` the modification log is empty. -/
theorem c10_store_modification_dead_dedup :
    (do store_modification .add (.faceT, 1) none
        store_modification .remove (.faceT, 1) none : M Unit) emptyMState =
      Res.ok () { emptyMState with
                    mods := [(1, ⟨.remove, (.faceT, 1), none⟩)] } ∧
    (do store_modification .add (.faceT, 1) none
        store_modification .remove (.faceT, 1) none
        store_modification .add (.faceT, 1) none : M Unit) emptyMState =
      Res.ok () { emptyMState with
                    mods := [(1, ⟨.add, (.faceT, 1), none⟩)] } ∧
    watch { emptyMState with
              mods := [(1, ⟨.remove, (.faceT, 1), none⟩)] } =
      Res.ok () emptyMState := by
  refine ⟨rfl, rfl, rfl⟩

/-- C9 (code_bug evidence).  At the mutable corner vertex `4` of the square
mesh, which has exactly two outgoing edges (`5` and `6`) that are not
aligned (the interior angle is 90°, far from the 2° tolerance around 180°),
`Vertex.clean` hits no `return` statement and yields Python `None`
(embedded as `none`) instead of the empty list that its `List['Edge']`
annotation, its docstring and the claim promise; the mesh is left
untouched. -/
theorem c9_clean_falls_through_to_none :
    (alookup 4 sqS.verts).map VertexRec.isMutable = some true ∧
    fanList 30 4 sqS = Res.ok [5, 6] sqS ∧
    next_is_aligned 2 sqS = Res.ok false sqS ∧
    vclean 30 4 sqS = Res.ok none sqS := by
  refine ⟨rfl, rfl, rfl, rfl⟩

/-- The run of claim C7's failing input: collapsing the short dangling edge
`15` of `dangS` (the configuration `Face.simplify` produces for
near-zero-length edges). -/
def c7Run : Res Unit := collapse 40 15 dangS

/-- The mesh state after the collapse of the dangling edge. -/
def c7Final : MState :=
  match c7Run with
  | .ok _ s => s
  | .err _ s => s

/-- C7 (code_bug evidence).  The input mesh satisfies the back-reference
integrity check, the collapse of the dangling edge `15` completes without
raising, and afterwards the surviving vertex `14` — still in the mesh, and
the start of the mesh edge `5` — has its anchor `edge` pointing at the
removed half-edge `16`: `preserve_references` re-pointed it to
`pair.ccw = pair.previous.pair`, which degenerates to the removed pair
itself on a dangling edge.  This is exactly the state `Mesh.check` flags as
`Vertex has a reference edge outside of the mesh`. -/
theorem c7_collapse_leaves_dangling_vertex_anchor :
    refsOK dangS = true ∧
    pairOK dangS = true ∧
    c7Run = Res.ok () c7Final ∧
    14 ∈ c7Final.vdict ∧
    (alookup 14 c7Final.verts).map VertexRec.edge = some (some 16) ∧
    16 ∉ c7Final.edict ∧
    5 ∈ c7Final.edict ∧
    (alookup 5 c7Final.edges).map EdgeRec.start = some 14 ∧
    refsOK c7Final = false := by
  refine ⟨rfl, rfl, rfl, by decide, rfl, by decide, by decide, rfl, rfl⟩

/-- C6 (confirmed).  Internal-edge removal restriction: for every edge whose
two half-edges carry the same face (an internal, hole-bridging edge) and
which is not an isolated dangling edge (`e.next is not e.pair` and
`e.pair.next is not e`), `Edge.remove` raises `ValueError` before touching
anything: the mesh state carried by the exception is exactly the input
state, so the edge is not removed. -/
theorem c6_internal_nonisolated_remove_raises
    (fuel e : Nat) (b : Bool) (s : MState) (er pr : EdgeRec) (p : Nat)
    (hE : alookup e s.edges = some er)
    (hP : er.pair = some p)
    (hPE : alookup p s.edges = some pr)
    (hFace : er.face = pr.face)
    (hN1 : er.next ≠ some p)
    (hN2 : pr.next ≠ some e) :
    remove (fuel + 1) e b s = Res.err .valueErr s := by
  simp only [remove, bind_app, pure_app, getE, deref, is_internal, throwM, hE, hP, hPE]
  simp only [hFace, decide_eq_true_eq]
  simp only [if_true, bind_app, getE, hE, hPE]
  rw [if_pos (And.intro hN1 hN2)]
  simp only [throwM, bind_app]

/-- Witness for C6: the bridge half-edge `20` of the square-with-hole mesh
is internal (both sides carry face `3`) and not isolated (its `next` is the
hole run `22`, its pair's `next` is the boundary continuation `19`):
removing it raises and the carried state is the untouched input mesh. -/
theorem c6_internal_nonisolated_remove_raises_witness :
    alookup 20 holeS.edges = some ⟨18, some 22, some 21, some 3, true⟩ ∧
    alookup 21 holeS.edges = some ⟨14, some 19, some 20, some 3, true⟩ ∧
    remove (39 + 1) 20 true holeS = Res.err .valueErr holeS :=
  ⟨rfl, rfl,
    c6_internal_nonisolated_remove_raises 39 20 true holeS
      ⟨18, some 22, some 21, some 3, true⟩ ⟨14, some 19, some 20, some 3, true⟩ 21
      rfl rfl rfl rfl (by decide) (by decide)⟩

/-! ## Helper lemmas: association lists and `split` at extremities -/

theorem alookup_aset_self {α : Type} (k : Nat) (v : α) (l : List (Nat × α)) :
    alookup k (aset k v l) = some v := by
  induction l with
  | nil => simp [alookup, aset]
  | cons hd tl ih =>
      by_cases h : k = hd.1
      · simp [alookup, aset, h]
      · simp [alookup, aset, h, ih]

theorem alookup_aset_ne {α : Type} {k k2 : Nat} (v : α) (l : List (Nat × α))
    (h : k ≠ k2) : alookup k (aset k2 v l) = alookup k l := by
  induction l with
  | nil => simp [alookup, aset, h]
  | cons hd tl ih =>
      by_cases h2 : k2 = hd.1
      · subst h2
        simp [alookup, aset, h]
      · by_cases h3 : k = hd.1
        · simp [alookup, aset, h2, h3]
        · simp [alookup, aset, h2, h3, ih]

/-- Rewiring the starts of a list of heap edges touches only the edge heap:
dictionaries, vertex/face heaps, boundary, log and counter are unchanged,
and the edge heap keeps its domain. -/
theorem forList_setStartE_shape (o : Nat) (l : List Nat) :
    ∀ s : MState, (∀ i ∈ l, (alookup i s.edges).isSome) →
    ∃ eh, forList (fun e => setStartE e o) l s =
        Res.ok () { s with edges := eh } ∧
      (∀ i, (alookup i eh).isSome ↔ (alookup i s.edges).isSome) ∧
      (∀ i, i ∉ l → alookup i eh = alookup i s.edges) := by
  induction l with
  | nil =>
      intro s _
      refine ⟨s.edges, ?_, fun i => Iff.rfl, fun i _ => rfl⟩
      simp [forList, pure_app]
  | cons hd tl ih =>
      intro s hdom
      have hhd : (alookup hd s.edges).isSome := hdom hd (by simp)
      match her : alookup hd s.edges with
      | none => rw [her] at hhd; simp at hhd
      | some er =>
          have hstep : setStartE hd o s =
              Res.ok () { s with edges := aset hd { er with start := o } s.edges } := by
            simp [setStartE, bind_app, getE, putE, modS, her, pure_app]
          have hdom2 : ∀ i ∈ tl,
              (alookup i ({ s with edges := aset hd { er with start := o } s.edges}).edges).isSome := by
            intro i hi
            by_cases hik : i = hd
            · subst hik
              simp [alookup_aset_self]
            · simp only [alookup_aset_ne _ _ hik]
              exact hdom i (by simp [hi])
          obtain ⟨eh, hrun, hdomp, hunch⟩ := ih _ hdom2
          refine ⟨eh, ?_, ?_, ?_⟩
          · simp only [forList, bind_app]
            rw [hstep]
            simpa using hrun
          · intro i
            rw [hdomp i]
            by_cases hik : i = hd
            · subst hik
              simp [alookup_aset_self, her]
            · simp [alookup_aset_ne _ _ hik]
          · intro i hi
            simp only [List.mem_cons, not_or] at hi
            rw [hunch i hi.2]
            exact alookup_aset_ne _ _ hi.1



theorem split_at_start_vertex (fuel e v : Nat) (s : MState) (er nxr : EdgeRec) (nx : Nat)
    (hE : alookup e s.edges = some er)
    (hNx : er.next = some nx)
    (hNxr : alookup nx s.edges = some nxr)
    (hv : v = er.start) :
    split fuel e v s = Res.ok e s := by
  simp only [split, snap_to, snapToAux, endOf, bind_app, pure_app, getE, deref,
    hE, hNx, hNxr, hv, if_true]

theorem split_at_end_vertex (fuel e v : Nat) (s : MState) (er nxr : EdgeRec) (vr sr : VertexRec) (nx : Nat)
    (hE : alookup e s.edges = some er)
    (hNx : er.next = some nx)
    (hNxr : alookup nx s.edges = some nxr)
    (hne : v ≠ er.start)
    (hV : alookup v s.verts = some vr)
    (hS : alookup er.start s.verts = some sr)
    (hclose : is_close ⟨vr.x, vr.y⟩ ⟨sr.x, sr.y⟩ = false)
    (hv : v = nxr.start) :
    split fuel e v s = Res.ok nx s := by
  subst hv
  simp only [split, snap_to, snapToAux, endOf, coordsOf, bind_app, pure_app, getE, getV, deref,
    hE, hNx, hNxr, hV, hS, hclose, hne, if_true, if_neg, Bool.false_eq_true, if_false,
    if_pos]



theorem split_snapped_vertex_removed (fuel e v : Nat) (s : MState) (er nxr : EdgeRec) (vr sr : VertexRec)
    (nx : Nat) (fan : List Nat)
    (hE : alookup e s.edges = some er)
    (hNx : er.next = some nx)
    (hNxr : alookup nx s.edges = some nxr)
    (hne : v ≠ er.start)
    (hV : alookup v s.verts = some vr)
    (hS : alookup er.start s.verts = some sr)
    (hclose : is_close ⟨vr.x, vr.y⟩ ⟨sr.x, sr.y⟩ = true)
    (hInM : vr.inMesh = true)
    (hvd : v ∈ s.vdict)
    (hfan : vr.edge = none ∨ (fanList fuel v s = Res.ok fan s ∧
      ∀ i ∈ fan, (alookup i s.edges).isSome)) :
    ∃ s2, split fuel e v s = Res.ok e s2 ∧
      s2.edict = s.edict ∧ s2.fdict = s.fdict ∧ s2.vdict = s.vdict.erase v := by
  match hedge : vr.edge, hfan with
  | none, _ =>
      refine ⟨{ s with verts := aset v { vr with inMesh := false } s.verts,
                       vdict := s.vdict.erase v,
                       mods := aset v ⟨.remove, (.vertexT, v), none⟩ s.mods }, ?_, rfl, rfl, rfl⟩
      cases halm : alookup v s.mods <;>
        simp only [split, snap_to, snapToAux, endOf, coordsOf, bind_app, pure_app, getE, getV,
          deref, hE, hNx, hNxr, hV, hS, hclose, hne, hedge, if_true, if_neg, if_false,
          setEdgeV, putV, modS, meshRemoveVertex, store_modification, getS, hInM, hvd, if_pos,
          halm, ne_eq, not_true_eq_false, Bool.false_eq_true, not_false_eq_true]
  | some a, Or.inl habs => exact absurd habs (by simp [hedge])
  | some a, Or.inr ⟨hfanRun, hfanDom⟩ =>
      obtain ⟨eh, hfl, _⟩ := forList_setStartE_shape er.start fan s hfanDom
      refine ⟨{ s with edges := eh,
                       verts := aset v ⟨vr.x, vr.y, none, vr.isMutable, false⟩
                         (aset v { vr with edge := none } s.verts),
                       vdict := s.vdict.erase v,
                       mods := aset v ⟨.remove, (.vertexT, v), none⟩ s.mods }, ?_, rfl, rfl, rfl⟩
      cases halm : alookup v s.mods <;>
        simp only [split, snap_to, snapToAux, endOf, coordsOf, bind_app, pure_app, getE, getV,
          deref, hE, hNx, hNxr, hV, hS, hclose, hne, hedge, if_true, if_neg, if_false,
          hfanRun, hfl, setEdgeV, putV, modS, meshRemoveVertex, store_modification,
          getS, hInM, hvd, if_pos, halm, ne_eq, not_true_eq_false, Bool.false_eq_true,
          not_false_eq_true, alookup_aset_self, reduceCtorEq]


theorem split_snapped_end_vertex_removed (fuel e v : Nat) (s : MState) (er nxr : EdgeRec)
    (vr sr env : VertexRec) (nx : Nat) (fan : List Nat)
    (hE : alookup e s.edges = some er)
    (hNx : er.next = some nx)
    (hNxr : alookup nx s.edges = some nxr)
    (hne : v ≠ er.start)
    (hneEnd : v ≠ nxr.start)
    (hEndStart : nxr.start ≠ er.start)
    (hV : alookup v s.verts = some vr)
    (hS : alookup er.start s.verts = some sr)
    (hEnV : alookup nxr.start s.verts = some env)
    (hcloseS : is_close ⟨vr.x, vr.y⟩ ⟨sr.x, sr.y⟩ = false)
    (hcloseE : is_close ⟨vr.x, vr.y⟩ ⟨env.x, env.y⟩ = true)
    (hInM : vr.inMesh = true)
    (hvd : v ∈ s.vdict)
    (hfan : vr.edge = none ∨ (fanList fuel v s = Res.ok fan s ∧
      (∀ i ∈ fan, (alookup i s.edges).isSome) ∧ e ∉ fan ∧ nx ∉ fan)) :
    ∃ s2, split fuel e v s = Res.ok nx s2 ∧
      s2.edict = s.edict ∧ s2.fdict = s.fdict ∧ s2.vdict = s.vdict.erase v := by
  match hedge : vr.edge, hfan with
  | none, _ =>
      refine ⟨{ s with verts := aset v { vr with inMesh := false } s.verts,
                       vdict := s.vdict.erase v,
                       mods := aset v ⟨.remove, (.vertexT, v), none⟩ s.mods }, ?_, rfl, rfl, rfl⟩
      cases halm : alookup v s.mods <;>
        simp only [split, snap_to, snapToAux, endOf, coordsOf, bind_app, pure_app, getE, getV,
          deref, hE, hNx, hNxr, hV, hS, hEnV, hcloseS, hcloseE, hne, hneEnd, hEndStart,
          hedge, if_true, if_neg, if_false, Bool.false_eq_true,
          setEdgeV, putV, modS, meshRemoveVertex, store_modification, getS, hInM, hvd, if_pos,
          halm, ne_eq, not_true_eq_false, not_false_eq_true]
  | some a, Or.inl habs => exact absurd habs (by simp [hedge])
  | some a, Or.inr ⟨hfanRun, hfanDom, hEfan, hNxfan⟩ =>
      obtain ⟨eh, hfl, _, hunch⟩ := forList_setStartE_shape nxr.start fan s hfanDom
      have hEeh : alookup e eh = some er := by
        rw [hunch e hEfan]
        exact hE
      have hNxeh : alookup nx eh = some nxr := by
        rw [hunch nx hNxfan]
        exact hNxr
      refine ⟨{ s with edges := eh,
                       verts := aset v ⟨vr.x, vr.y, none, vr.isMutable, false⟩
                         (aset v { vr with edge := none } s.verts),
                       vdict := s.vdict.erase v,
                       mods := aset v ⟨.remove, (.vertexT, v), none⟩ s.mods }, ?_, rfl, rfl, rfl⟩
      cases halm : alookup v s.mods <;>
        simp only [split, snap_to, snapToAux, endOf, coordsOf, bind_app, pure_app, getE, getV,
          deref, hE, hNx, hNxr, hV, hS, hEnV, hcloseS, hcloseE, hne, hneEnd, hEndStart,
          hedge, if_true, if_neg, if_false, Bool.false_eq_true,
          hfanRun, hfl, hEeh, hNxeh, setEdgeV, putV, modS, meshRemoveVertex,
          store_modification, getS, hInM, hvd, if_pos, halm, ne_eq, not_true_eq_false,
          not_false_eq_true, alookup_aset_self, reduceCtorEq]

/-- The square mesh with an extra unattached mutable vertex `14` at
`(0.5, 0)`, within `COORD_EPSILON` of the corner vertex `1 = (0, 0)` — the
shape in which the kernel itself hands a speculative vertex to
`Edge.split`. -/
def c4PreS : MState :=
  match newVertex ⟨5000, 0⟩ none true none sqS with
  | .ok _ s => s
  | .err _ s => s

/-- The run of `edge 2 .split(vertex 14)` on that mesh. -/
def c4Run : Res Nat := split 30 2 14 c4PreS

/-- The mesh state after that split call. -/
def c4Post : MState :=
  match c4Run with
  | .ok _ s => s
  | .err _ s => s

/-- C4 (counterexample).  Vertex `14` coincides with `edge 2 .start`
(vertex `1`) within the coordinate epsilon and is a distinct vertex of the
mesh; `split` does return edge `2` itself and creates no edge or face, but
the mesh's component counts are not unchanged: `snap_to` removes the
snapped vertex, so the vertex dictionary shrinks from five to four entries.
This falsifies the claim's "leaving the mesh's component counts unchanged"
as stated. -/
theorem c4_split_counterexample :
    (alookup 2 c4PreS.edges).map EdgeRec.start = some 1 ∧
    is_close ⟨5000, 0⟩ ⟨0, 0⟩ = true ∧
    (14 : Nat) ≠ 1 ∧
    14 ∈ c4PreS.vdict ∧
    c4Run = Res.ok 2 c4Post ∧
    c4Post.edict = c4PreS.edict ∧
    c4Post.fdict = c4PreS.fdict ∧
    c4Post.vdict.length = 4 ∧
    c4PreS.vdict.length = 5 := by
  exact ⟨rfl, by decide, by decide, by decide, rfl, rfl, rfl, rfl, rfl⟩

/-- The square mesh with an extra unattached mutable vertex `14` at
`(99.5, 0)`, within `COORD_EPSILON` of the corner vertex `4 = (100, 0)`,
the end vertex of edge `2`. -/
def c4PreS2 : MState :=
  match newVertex ⟨995000, 0⟩ none true none sqS with
  | .ok _ s => s
  | .err _ s => s

/-- C4 (amended).  `Edge.split` at a coinciding vertex returns the existing
edge and creates no component: when the vertex is the start vertex itself
the mesh is untouched and `self` is returned; when it is the end vertex
itself the mesh is untouched and `self.next` is returned; and when it is a
distinct vertex within the coordinate epsilon of the start (resp. end)
vertex, `self` (resp. `self.next`) is returned but the vertex is snapped
onto that extremity and removed from the mesh — the edge and face
dictionaries are unchanged while the vertex dictionary loses exactly the
snapped vertex. -/
theorem c4_split_extremity_amended :
    (∀ (fuel e v : Nat) (s : MState) (er nxr : EdgeRec) (nx : Nat),
      alookup e s.edges = some er →
      er.next = some nx →
      alookup nx s.edges = some nxr →
      v = er.start →
      split fuel e v s = Res.ok e s) ∧
    (∀ (fuel e v : Nat) (s : MState) (er nxr : EdgeRec) (vr sr : VertexRec) (nx : Nat),
      alookup e s.edges = some er →
      er.next = some nx →
      alookup nx s.edges = some nxr →
      v ≠ er.start →
      alookup v s.verts = some vr →
      alookup er.start s.verts = some sr →
      is_close ⟨vr.x, vr.y⟩ ⟨sr.x, sr.y⟩ = false →
      v = nxr.start →
      split fuel e v s = Res.ok nx s) ∧
    (∀ (fuel e v : Nat) (s : MState) (er nxr : EdgeRec) (vr sr : VertexRec)
        (nx : Nat) (fan : List Nat),
      alookup e s.edges = some er →
      er.next = some nx →
      alookup nx s.edges = some nxr →
      v ≠ er.start →
      alookup v s.verts = some vr →
      alookup er.start s.verts = some sr →
      is_close ⟨vr.x, vr.y⟩ ⟨sr.x, sr.y⟩ = true →
      vr.inMesh = true →
      v ∈ s.vdict →
      (vr.edge = none ∨ (fanList fuel v s = Res.ok fan s ∧
        ∀ i ∈ fan, (alookup i s.edges).isSome)) →
      ∃ s2, split fuel e v s = Res.ok e s2 ∧
        s2.edict = s.edict ∧ s2.fdict = s.fdict ∧ s2.vdict = s.vdict.erase v) ∧
    (∀ (fuel e v : Nat) (s : MState) (er nxr : EdgeRec) (vr sr env : VertexRec)
        (nx : Nat) (fan : List Nat),
      alookup e s.edges = some er →
      er.next = some nx →
      alookup nx s.edges = some nxr →
      v ≠ er.start →
      v ≠ nxr.start →
      nxr.start ≠ er.start →
      alookup v s.verts = some vr →
      alookup er.start s.verts = some sr →
      alookup nxr.start s.verts = some env →
      is_close ⟨vr.x, vr.y⟩ ⟨sr.x, sr.y⟩ = false →
      is_close ⟨vr.x, vr.y⟩ ⟨env.x, env.y⟩ = true →
      vr.inMesh = true →
      v ∈ s.vdict →
      (vr.edge = none ∨ (fanList fuel v s = Res.ok fan s ∧
        (∀ i ∈ fan, (alookup i s.edges).isSome) ∧ e ∉ fan ∧ nx ∉ fan)) →
      ∃ s2, split fuel e v s = Res.ok nx s2 ∧
        s2.edict = s.edict ∧ s2.fdict = s.fdict ∧ s2.vdict = s.vdict.erase v) :=
  ⟨fun fuel e v s er nxr nx hE hNx hNxr hv =>
      split_at_start_vertex fuel e v s er nxr nx hE hNx hNxr hv,
   fun fuel e v s er nxr vr sr nx hE hNx hNxr hne hV hS hclose hv =>
      split_at_end_vertex fuel e v s er nxr vr sr nx hE hNx hNxr hne hV hS hclose hv,
   fun fuel e v s er nxr vr sr nx fan hE hNx hNxr hne hV hS hclose hIn hvd hfan =>
      split_snapped_vertex_removed fuel e v s er nxr vr sr nx fan
        hE hNx hNxr hne hV hS hclose hIn hvd hfan,
   fun fuel e v s er nxr vr sr env nx fan hE hNx hNxr hne hneEnd hEndStart hV hS hEnV
        hcloseS hcloseE hIn hvd hfan =>
      split_snapped_end_vertex_removed fuel e v s er nxr vr sr env nx fan
        hE hNx hNxr hne hneEnd hEndStart hV hS hEnV hcloseS hcloseE hIn hvd hfan⟩

/-- Witness for the amended C4, on the square mesh: splitting edge `2` at
its own start vertex `1` returns edge `2` and leaves the mesh untouched;
splitting it at its own end vertex `4` returns edge `5` and leaves the mesh
untouched; splitting it at the distinct vertex `14` of `c4PreS` coinciding
with the start returns edge `2` with the vertex dictionary shrunk by
exactly that vertex; and splitting it at the distinct vertex `14` of
`c4PreS2` coinciding with the end returns edge `5` (`self.next`) with the
vertex dictionary shrunk by exactly that vertex. -/
theorem c4_split_extremity_amended_witness :
    split 30 2 1 sqS = Res.ok 2 sqS ∧
    split 30 2 4 sqS = Res.ok 5 sqS ∧
    (∃ s2, split 30 2 14 c4PreS = Res.ok 2 s2 ∧
      s2.edict = c4PreS.edict ∧ s2.fdict = c4PreS.fdict ∧
      s2.vdict = c4PreS.vdict.erase 14) ∧
    (∃ s2, split 30 2 14 c4PreS2 = Res.ok 5 s2 ∧
      s2.edict = c4PreS2.edict ∧ s2.fdict = c4PreS2.fdict ∧
      s2.vdict = c4PreS2.vdict.erase 14) :=
  ⟨c4_split_extremity_amended.1 30 2 1 sqS ⟨1, some 5, some 6, some 3, true⟩
      ⟨4, some 8, some 9, some 3, true⟩ 5 rfl rfl rfl rfl,
   c4_split_extremity_amended.2.1 30 2 4 sqS ⟨1, some 5, some 6, some 3, true⟩
      ⟨4, some 8, some 9, some 3, true⟩ ⟨1000000, 0, some 5, true, true⟩
      ⟨0, 0, some 2, false, true⟩ 5 rfl rfl rfl (by decide) rfl rfl (by decide) rfl,
   c4_split_extremity_amended.2.2.1 30 2 14 c4PreS ⟨1, some 5, some 6, some 3, true⟩
      ⟨4, some 8, some 9, some 3, true⟩ ⟨5000, 0, none, true, true⟩
      ⟨0, 0, some 2, false, true⟩ 5 [] rfl rfl rfl (by decide) rfl rfl (by decide) rfl
      (by decide) (Or.inl rfl),
   c4_split_extremity_amended.2.2.2 30 2 14 c4PreS2 ⟨1, some 5, some 6, some 3, true⟩
      ⟨4, some 8, some 9, some 3, true⟩ ⟨995000, 0, none, true, true⟩
      ⟨0, 0, some 2, false, true⟩ ⟨1000000, 0, some 5, true, true⟩ 5 [] rfl rfl rfl
      (by decide) (by decide) (by decide) rfl rfl rfl (by decide) (by decide) rfl
      (by decide) (Or.inl rfl)⟩

/-- The square mesh with an extra unattached mutable vertex `14` at the
midpoint `(50, 0)` of the bottom edge — the caller-created vertex handed to
`Edge.cut`. -/
def c5PreS : MState :=
  match newVertex ⟨500000, 0⟩ none true none sqS with
  | .ok _ s => s
  | .err _ s => s

/-- The run of `edge 2 .cut(vertex 14, vector=(0,1), max_length=10)`: the
ray hits the top edge at distance 100 > 10, so `intersect` discards the
intersection vertex and the cut fails. -/
def c5Run : Res (Option (Nat × Nat × Option Nat)) :=
  cut 40 2 14 90 (some ⟨0, 1⟩) (some (10000000000, 1)) c5PreS

/-- The mesh state after the failed cut. -/
def c5Post : MState :=
  match c5Run with
  | .ok _ s => s
  | .err _ s => s

/-- The mesh state after only `edge 2 .split(vertex 14)` on the same input,
for comparison with the failed cut's final state. -/
def c5SplitPost : MState :=
  match split 40 2 14 c5PreS with
  | .ok _ s => s
  | .err _ s => s

/-- C5 (counterexample).  The cut fails (returns `None`) because the only
ray intersection lies beyond `max_length`, yet the mesh is not left as it
was: `first_edge.split(vertex)` ran before `intersect`, so the edge
dictionary has grown by the two split half-edges `15`/`16` and the input
vertex `14` is wired into the topology.  This falsifies "the mesh is left
exactly as it was before the call". -/
theorem c5_cut_counterexample :
    c5Run = Res.ok none c5Post ∧
    c5Post.edict = c5PreS.edict ++ [15, 16] ∧
    (alookup 14 c5Post.verts).map VertexRec.edge = some (some 15) ∧
    c5Post.edict ≠ c5PreS.edict := by
  exact ⟨rfl, rfl, rfl, by decide⟩

/-- C5 (amended).  Failure atomicity holds only for the failure paths that
abort before the initial split: a cut on a boundary edge (`face is None`)
returns `None` with the mesh untouched.  A cut that fails because no viable
ray intersection exists within `max_length` returns `None` but keeps the
initial split: on the failing input, the final state has exactly the edge
heap, edge/vertex/face dictionaries of the plain split of the same edge at
the same vertex; only the speculative intersection vertex is cleaned up
(id `17` is allocated, removed again, and stays out of the mesh, leaving
the id counter one higher). -/
theorem c5_cut_failure_atomicity_amended :
    (∀ (fuel e v : Nat) (a : ℤ) (vec : Option Pt) (ml : Option (ℤ × ℤ))
        (s : MState) (er : EdgeRec),
      alookup e s.edges = some er →
      er.face = none →
      cut fuel e v a vec ml s = Res.ok none s) ∧
    (c5Run = Res.ok none c5Post ∧
     c5Post.edges = c5SplitPost.edges ∧
     c5Post.edict = c5SplitPost.edict ∧
     c5Post.vdict = c5SplitPost.vdict ∧
     c5Post.fdict = c5SplitPost.fdict ∧
     c5Post.counter = c5SplitPost.counter + 1 ∧
     17 ∉ c5Post.vdict) := by
  constructor
  · intro fuel e v a vec ml s er hE hFace
    simp only [cut, bind_app, pure_app, getE, hE, hFace, if_pos]
  · exact ⟨rfl, rfl, rfl, rfl, rfl, rfl, by decide⟩

/-- Witness for the amended C5: cutting from the boundary edge `6` of the
square mesh (face `None`) returns `None` and leaves the state untouched. -/
theorem c5_cut_failure_atomicity_amended_witness :
    cut 40 6 1 90 none none sqS = Res.ok none sqS :=
  c5_cut_failure_atomicity_amended.1 40 6 1 90 none none sqS
    ⟨4, some 13, some 2, none, true⟩ rfl rfl


/-! ## Well-formedness and the serialization round-trip -/

end MeshKernel
